import Mathlib

/-
Verification of the Market Synchronization Engine of the Polybot repository,
embedded shallowly from src/services/wsTradeMonitor.ts.

Conventions of the embedding:
  - JS strings are Lean String; JS numbers occurring as timestamps and
    millisecond ages are Int; JS numbers obtained from parseFloat on the
    decimal numerals of the feed are exact rationals.
  - The module-level mutable state of wsTradeMonitor.ts (subscribedAssets,
    orderBookCache, isFirstRun) is passed explicitly; Date.now() is passed
    as an explicit now argument.
  - A JS Map is an association list, a JS Set is an insertion-ordered
    duplicate-free list, and fallible network calls are Except values.
-/

/-- Numeric value of a list of decimal digit characters, most significant
first, as produced by reading a numeral left to right. -/
def digitsVal (cs : List Char) : Nat :=
  cs.foldl (fun acc c => acc * 10 + (c.toNat - 48)) 0

/-- Splits a leading run of decimal digit characters from the rest. -/
def takeDigits : List Char → List Char × List Char
  | [] => ([], [])
  | c :: cs =>
      if 48 ≤ c.toNat ∧ c.toNat ≤ 57 then
        let (d, rest) := takeDigits cs
        (c :: d, rest)
      else ([], c :: cs)

/-- Models the JavaScript parseFloat on the well-formed decimal numerals
(optional leading minus sign, digits, optional fractional part) that the
feed carries in its price and size fields, as an exact rational.  The
result is assembled with integer arithmetic and one mkRat so that concrete
instances reduce inside the kernel. -/
def parseFloat (s : String) : ℚ :=
  let (sign, cs) :=
    match s.data with
    | '-' :: rest => ((-1 : Int), rest)
    | cs => ((1 : Int), cs)
  let (ip, rest) := takeDigits cs
  match rest with
  | '.' :: rest2 =>
      let (fp, _) := takeDigits rest2
      mkRat (sign * ((digitsVal ip : Int) * ((10 : Int) ^ fp.length) + (digitsVal fp : Int)))
        ((10 : Nat) ^ fp.length)
  | _ => mkRat (sign * (digitsVal ip : Int)) 1

/-- One ladder entry of the order book, exactly as carried by the feed:
price and size are the decimal strings of the inbound JSON. -/
structure BookEntry where
  price : String
  size : String
deriving DecidableEq

/-- One entry of the changes array of a price_change event. -/
structure PriceChange where
  side : String
  price : String
  size : String
deriving DecidableEq

/-- The value of one orderBookCache slot: asks and bids ladders plus the
last-update timestamp. -/
structure OrderBook where
  asks : List BookEntry
  bids : List BookEntry
  timestamp : Int
deriving DecidableEq

/-- The orderBookCache Map, asset id to order book. -/
def OrderBookCache := List (String × OrderBook)

/-- Ascending order on ladder entries by numeric price: the order realized
by the comparator (a, b) => parseFloat(a.price) - parseFloat(b.price). -/
def priceLe (a b : BookEntry) : Prop := parseFloat a.price ≤ parseFloat b.price

instance : DecidableRel priceLe := fun a b =>
  inferInstanceAs (Decidable (parseFloat a.price ≤ parseFloat b.price))

instance : IsTotal BookEntry priceLe := ⟨fun a b => le_total (parseFloat a.price) (parseFloat b.price)⟩

instance : IsTrans BookEntry priceLe := ⟨fun _ _ _ h h₂ => le_trans h h₂⟩

/-- Descending order on ladder entries by numeric price. -/
def priceGe (a b : BookEntry) : Prop := parseFloat b.price ≤ parseFloat a.price

instance : DecidableRel priceGe := fun a b =>
  inferInstanceAs (Decidable (parseFloat b.price ≤ parseFloat a.price))

/-- updateOrderBookSide of wsTradeMonitor.ts: remove any existing entry at
the changed price (string comparison, as entry.price !== price), append the
new entry if parseFloat(size) > 0, then sort with the numeric comparator
(a, b) => parseFloat(a.price) - parseFloat(b.price).  Array.prototype.sort
with a numeric comparator is modelled as a stable sort ascending in that
key, List.insertionSort. -/
def updateOrderBookSide (side : List BookEntry) (change : PriceChange) : List BookEntry :=
  let price := change.price
  let size := change.size
  let filtered := side.filter (fun entry => entry.price != price)
  let filtered := if parseFloat size > 0 then filtered ++ [{ price := price, size := size }] else filtered
  List.insertionSort priceLe filtered

/-- The for-loop of the price_change handler: apply each change to the bids
ladder when its side is BUY, else to the asks ladder. -/
def applyPriceChanges (ob : OrderBook) (changes : List PriceChange) : OrderBook :=
  changes.foldl
    (fun b change =>
      if change.side == "BUY" then { b with bids := updateOrderBookSide b.bids change }
      else { b with asks := updateOrderBookSide b.asks change })
    ob

/-- orderBookCache.set: replace the slot of the key if present, else append. -/
def cacheSet : OrderBookCache → String → OrderBook → OrderBookCache
  | [], assetId, ob => [(assetId, ob)]
  | (k, v) :: rest, assetId, ob =>
      if k == assetId then (assetId, ob) :: rest
      else (k, v) :: cacheSet rest assetId ob

/-- The inbound events the message handler distinguishes by event_type.
A price_change or tick_size_change event may or may not carry a changes
array (the handler guards with if (parsed.changes)). -/
inductive WsEvent where
  | book (asks bids : List BookEntry)
  | priceChange (changes : Option (List PriceChange))
  | tickSizeChange (changes : Option (List PriceChange))
  | lastTradePrice
deriving DecidableEq

/-- The message handler of connectWebSocket for a parsed message carrying
an asset_id (messages without one, PONG, and non-JSON messages leave the
cache unchanged and are not modelled).  existing is the cached book of the
asset, defaulting to empty ladders with timestamp 0. -/
def handleMessage (cache : OrderBookCache) (now : Int) (assetId : String) (ev : WsEvent) :
    OrderBookCache :=
  let existing := (cache.lookup assetId).getD { asks := [], bids := [], timestamp := 0 }
  match ev with
  | .book asks bids => cacheSet cache assetId { asks := asks, bids := bids, timestamp := now }
  | .priceChange changes =>
      cacheSet cache assetId (applyPriceChanges { existing with timestamp := now } (changes.getD []))
  | .tickSizeChange changes =>
      cacheSet cache assetId (applyPriceChanges { existing with timestamp := now } (changes.getD []))
  | .lastTradePrice => cacheSet cache assetId { existing with timestamp := now }

/-- getCachedOrderBook of wsTradeMonitor.ts: the cached book if present and
fresh (now minus its timestamp strictly below maxAgeMs), else null. -/
def getCachedOrderBook (cache : OrderBookCache) (now : Int) (assetId : String)
    (maxAgeMs : Int) : Option OrderBook :=
  match cache.lookup assetId with
  | some cached => if now - cached.timestamp < maxAgeMs then some cached else none
  | none => none

/-- One outbound subscription message, JSON.stringify of
the object with fields assets_ids and type (always the string market). -/
structure SubscribeMsg where
  assets_ids : List String
  type : String
deriving DecidableEq

/-- The connection-related module state: the subscribedAssets Set (as an
insertion-ordered duplicate-free list) and whether ws is non-null with
readyState OPEN. -/
structure ConnState where
  subscribed : List String
  wsOpen : Bool
deriving DecidableEq

/-- subscribedAssets.add(id): a JS Set add, appending only when absent. -/
def addAsset (s : List String) (id : String) : List String :=
  if s.contains id then s else s ++ [id]

/-- subscribeToAssets of wsTradeMonitor.ts: filter the ids not yet in
subscribedAssets; if none, return early; else add each to the set and, if
the socket is open, send one message carrying exactly the new ids.  The
second component collects the messages sent during the call. -/
def subscribeToAssets (st : ConnState) (assetIds : List String) : ConnState × List SubscribeMsg :=
  let newAssets := assetIds.filter (fun id => !(st.subscribed.contains id))
  if newAssets.isEmpty then (st, [])
  else
    let st₂ := { st with subscribed := newAssets.foldl addAsset st.subscribed }
    if st.wsOpen then (st₂, [{ assets_ids := newAssets, type := "market" }])
    else (st₂, [])

/-- The value of the call expression subscribeToAssets(ids): the TS function
is declared without a return type and every return path is a bare return,
so the call always evaluates to undefined, here none, never a number. -/
def subscribeToAssetsReturn (_st : ConnState) (_assetIds : List String) : Option Nat :=
  none

/-- Modelled from the spec: the Asset Subscription Tracker contract says
track(ids) returns how many ids were newly added.  This is the spec-side
return value, to be compared with subscribeToAssetsReturn. -/
def track_spec_return (st : ConnState) (assetIds : List String) : Option Nat :=
  some (assetIds.filter (fun id => !(st.subscribed.contains id))).length

/-- The open handler of connectWebSocket: mark the socket open and, when
subscribedAssets is non-empty, send one subscription message carrying the
entire known set. -/
def wsOnOpen (st : ConnState) : ConnState × List SubscribeMsg :=
  let st₂ := { st with wsOpen := true }
  if st₂.subscribed.isEmpty then (st₂, [])
  else (st₂, [{ assets_ids := st₂.subscribed, type := "market" }])

/-- One trade activity entry as fetched from the exchange activity
endpoint, with the fields the poller copies. -/
structure ActivityEvent where
  proxyWallet : String
  timestamp : Int
  conditionId : String
  type : String
  size : ℚ
  usdcSize : ℚ
  transactionHash : String
  price : ℚ
  asset : String
  side : String
  outcomeIndex : Int
  title : String
  slug : String
  icon : String
  eventSlug : String
  outcome : String
  name : String
  pseudonym : String
  bio : String
  profileImage : String
  profileImageOptimized : String
deriving DecidableEq

/-- One persisted UserActivity document: the copied trade fields plus the
processed flag bot and the execution-attempt counter botExcutedTime. -/
structure UserActivityRecord where
  proxyWallet : String
  timestamp : Int
  conditionId : String
  type : String
  size : ℚ
  usdcSize : ℚ
  transactionHash : String
  price : ℚ
  asset : String
  side : String
  outcomeIndex : Int
  title : String
  slug : String
  icon : String
  eventSlug : String
  outcome : String
  name : String
  pseudonym : String
  bio : String
  profileImage : String
  profileImageOptimized : String
  bot : Bool
  botExcutedTime : Nat
deriving DecidableEq

/-- new UserActivity of fastPollTradeData: copy every activity field and
set bot to false and botExcutedTime to 0. -/
def mkUserActivity (a : ActivityEvent) : UserActivityRecord :=
  { proxyWallet := a.proxyWallet
    timestamp := a.timestamp
    conditionId := a.conditionId
    type := a.type
    size := a.size
    usdcSize := a.usdcSize
    transactionHash := a.transactionHash
    price := a.price
    asset := a.asset
    side := a.side
    outcomeIndex := a.outcomeIndex
    title := a.title
    slug := a.slug
    icon := a.icon
    eventSlug := a.eventSlug
    outcome := a.outcome
    name := a.name
    pseudonym := a.pseudonym
    bio := a.bio
    profileImage := a.profileImage
    profileImageOptimized := a.profileImageOptimized
    bot := false
    botExcutedTime := 0 }

/-- The body of the per-activity for-loop of fastPollTradeData, acting on
the pair of the per-wallet activity log and the connection state: skip the
entry when its timestamp is below the cutoff; skip when findOne by
transactionHash hits; else save the new record and, when the asset id is a
non-empty string, register it through subscribeToAssets. -/
def pollActivityStep (cutoff : Int) (s : List UserActivityRecord × ConnState)
    (a : ActivityEvent) : List UserActivityRecord × ConnState :=
  if a.timestamp < cutoff then s
  else
    match s.1.find? (fun r => r.transactionHash == a.transactionHash) with
    | some _ => s
    | none =>
        (s.1 ++ [mkUserActivity a],
          if a.asset != "" then (subscribeToAssets s.2 [a.asset]).1 else s.2)

/-- All iterations of the per-activity for-loop over one fetched activities
array. -/
def processActivities (cutoff : Int) (s : List UserActivityRecord × ConnState)
    (activities : List ActivityEvent) : List UserActivityRecord × ConnState :=
  activities.foldl (pollActivityStep cutoff) s

/-- One position entry as fetched from the exchange positions endpoint,
with the fields the synchronizer copies. -/
structure PositionEvent where
  proxyWallet : String
  asset : String
  conditionId : String
  size : ℚ
  avgPrice : ℚ
  initialValue : ℚ
  currentValue : ℚ
  cashPnl : ℚ
  percentPnl : ℚ
  totalBought : ℚ
  realizedPnl : ℚ
  percentRealizedPnl : ℚ
  curPrice : ℚ
  redeemable : Bool
  mergeable : Bool
  title : String
  slug : String
  icon : String
  eventSlug : String
  outcome : String
  outcomeIndex : Int
  oppositeOutcome : String
  oppositeAsset : String
  endDate : String
  negativeRisk : Bool
deriving DecidableEq

/-- One persisted UserPosition document; findOneAndUpdate with upsert sets
every listed field, so the document is a full copy of the fetched entry. -/
def UserPositionRecord := PositionEvent
deriving DecidableEq

/-- The copied document written by findOneAndUpdate. -/
def mkUserPosition (p : PositionEvent) : UserPositionRecord := p

/-- findOneAndUpdate keyed by asset and conditionId with upsert true:
replace the first matching document, else append a new one. -/
def upsertPosition : List UserPositionRecord → PositionEvent → List UserPositionRecord
  | [], p => [mkUserPosition p]
  | q :: qs, p =>
      if (mkUserPosition q).asset == p.asset && (mkUserPosition q).conditionId == p.conditionId then
        mkUserPosition p :: qs
      else q :: upsertPosition qs p

/-- The per-position for-loop of the piggy-backed position refresh. -/
def upsertPositions (posDb : List UserPositionRecord) (ps : List PositionEvent) :
    List UserPositionRecord :=
  ps.foldl upsertPosition posDb

/-- The inputs one wallet contributes to one poll cycle: the outcome of its
activity fetch (a thrown network error or the fetched array, a non-array
response modelled as the empty array since both take the early return), the
sampled Math.random() < 0.2 coin, the outcome of its position fetch, and
its two persisted collections. -/
structure WalletInput where
  actFetch : Except String (List ActivityEvent)
  doPositions : Bool
  posFetch : Except String (List PositionEvent)
  db : List UserActivityRecord
  posDb : List UserPositionRecord

/-- The body of the per-wallet async closure of fastPollTradeData, with its
try/catch made explicit: the first component is the state when the body
finishes or is caught (writes awaited before a throw persist), the second
is the error the catch block received, if any.  Errors are only logged
there, never rethrown. -/
def pollWalletBody (cutoff : Int) (conn : ConnState) (w : WalletInput) :
    ((List UserActivityRecord × List UserPositionRecord) × ConnState) × Option String :=
  match w.actFetch with
  | .error e => (((w.db, w.posDb), conn), some e)
  | .ok activities =>
      if activities.isEmpty then (((w.db, w.posDb), conn), none)
      else
        let s := processActivities cutoff (w.db, conn) activities
        if w.doPositions then
          match w.posFetch with
          | .error e => (((s.1, w.posDb), s.2), some e)
          | .ok positions =>
              if positions.isEmpty then (((s.1, w.posDb), s.2), none)
              else
                let assetIds := (positions.map (fun p => p.asset)).filter (fun id => id != "")
                let conn₂ := (subscribeToAssets s.2 assetIds).1
                (((s.1, upsertPositions w.posDb positions), conn₂), none)
        else (((s.1, w.posDb), s.2), none)

/-- One wallet of the poll cycle after its catch block swallowed any error:
only the state survives. -/
def pollWallet (cutoff : Int) (conn : ConnState) (w : WalletInput) :
    (List UserActivityRecord × List UserPositionRecord) × ConnState :=
  (pollWalletBody cutoff conn w).1

/-- The persisted outcome of one wallet of the poll cycle.  It is stated
relative to a fixed connection state because the activity and position
collections a wallet writes never depend on the shared subscription
state (proved below). -/
def pollWalletOut (cutoff : Int) (w : WalletInput) :
    List UserActivityRecord × List UserPositionRecord :=
  (pollWallet cutoff { subscribed := [], wsOpen := false } w).1

/-- The promise of one wallet of the cycle: it resolves with the wallet
state because the whole body sits inside try/catch. -/
def walletTask (cutoff : Int) (conn : ConnState) (w : WalletInput) :
    Except String ((List UserActivityRecord × List UserPositionRecord) × ConnState) :=
  Except.ok (pollWallet cutoff conn w)

/-- fastPollTradeData: Promise.all over the per-wallet closures.  The
single-threaded event loop serializes the wallets' state mutations; the
fold realizes one admissible serialization, threading the shared
connection state and collecting each wallet's persisted outcome.  A
rejection of any wallet task would propagate to the Except result, as for
Promise.all. -/
def pollWalletFold (cutoff : Int)
    (acc : List (List UserActivityRecord × List UserPositionRecord) × ConnState)
    (w : WalletInput) :
    Except String (List (List UserActivityRecord × List UserPositionRecord) × ConnState) := do
  let r ← walletTask cutoff acc.2 w
  pure (acc.1 ++ [r.1], r.2)

/-- The whole of fastPollTradeData: the join over every wallet of the
cycle, starting from the shared subscription state and the empty list of
outcomes. -/
def fastPollTradeData (cutoff : Int) (conn : ConnState) (wallets : List WalletInput) :
    Except String (List (List UserActivityRecord × List UserPositionRecord) × ConnState) :=
  wallets.foldlM (pollWalletFold cutoff)
    (([], conn) : List (List UserActivityRecord × List UserPositionRecord) × ConnState)

/-- The phases of one invocation of wsTradeMonitor, in program order:
the stored-count snapshot display (countDocuments plus dbConnection), the
own-positions display, the traders-positions display, connectWebSocket,
initTraderSubscriptions, the first-run bulk mark, and the fastPollTradeData
iterations of the polling loop. -/
inductive MonitorPhase where
  | dbSnapshot
  | myPositions
  | traderPositions
  | wsConnect
  | initSubscriptions
  | bulkMark
  | pollCycle
deriving DecidableEq

/-- The first-run bulk operation: for every wallet, updateMany with filter
bot false and update setting bot true and botExcutedTime 999. -/
def bulkMarkProcessed (dbs : List (List UserActivityRecord)) : List (List UserActivityRecord) :=
  dbs.map (fun db =>
    db.map (fun r =>
      if r.bot = false then { r with bot := true, botExcutedTime := 999 } else r))

/-- The phase trace of one invocation of wsTradeMonitor, given the value of
the module-level isFirstRun flag at entry and the number of poll-loop
iterations observed; the second component is the value of the flag
afterwards (the first-run block ends with isFirstRun = false, and the flag
is never set back). -/
def wsTradeMonitorTrace (isFirstRun : Bool) (cycles : Nat) : List MonitorPhase × Bool :=
  ([.dbSnapshot, .myPositions, .traderPositions, .wsConnect, .initSubscriptions]
      ++ (if isFirstRun then [.bulkMark] else [])
      ++ List.replicate cycles .pollCycle,
    false)

/-- A concrete trade activity entry used to instantiate theorems with
hypotheses on concrete inputs. -/
def sampleActivity : ActivityEvent :=
  { proxyWallet := "0xw", timestamp := 5, conditionId := "c1", type := "TRADE",
    size := 1, usdcSize := 2, transactionHash := "0xT1", price := 1,
    asset := "asset1", side := "BUY", outcomeIndex := 0, title := "t",
    slug := "s", icon := "i", eventSlug := "es", outcome := "Yes",
    name := "n", pseudonym := "p", bio := "b", profileImage := "pi",
    profileImageOptimized := "pio" }

/-- A concrete persisted record used to instantiate theorems with
hypotheses on concrete inputs. -/
def sampleRecord : UserActivityRecord := mkUserActivity sampleActivity

/-- The sample record after the first-run bulk mark. -/
def processedSampleRecord : UserActivityRecord :=
  { sampleRecord with bot := true, botExcutedTime := 999 }

/-- A concrete wallet input whose activity fetch failed, used to
instantiate theorems on concrete inputs. -/
def sampleFailedWallet : WalletInput :=
  { actFetch := Except.error "timeout", doPositions := false,
    posFetch := Except.ok [], db := [sampleRecord], posDb := [] }

theorem mem_addAsset {s : List String} {id x : String} :
    x ∈ addAsset s id ↔ x ∈ s ∨ x = id := by
  unfold addAsset
  split
  · next h =>
      constructor
      · exact Or.inl
      · rintro (hx | rfl)
        · exact hx
        · exact List.mem_of_elem_eq_true h
  · simp

theorem mem_foldl_addAsset (l : List String) :
    ∀ (s : List String) (x : String), x ∈ l.foldl addAsset s ↔ x ∈ s ∨ x ∈ l := by
  induction l with
  | nil => simp
  | cons a l ih =>
      intro s x
      rw [List.foldl_cons, ih, mem_addAsset]
      simp [or_assoc]

theorem subscribeToAssets_msgs (st : ConnState) (ids : List String) :
    (subscribeToAssets st ids).2
      = if (ids.filter (fun i => !(st.subscribed.contains i))).isEmpty then []
        else if st.wsOpen then
          [{ assets_ids := ids.filter (fun i => !(st.subscribed.contains i)), type := "market" }]
        else [] := by
  unfold subscribeToAssets
  dsimp only
  split
  · rfl
  · split <;> rfl

theorem subscribeToAssets_fst_subscribed (st : ConnState) (ids : List String) :
    (subscribeToAssets st ids).1.subscribed
      = if (ids.filter (fun i => !(st.subscribed.contains i))).isEmpty then st.subscribed
        else (ids.filter (fun i => !(st.subscribed.contains i))).foldl addAsset st.subscribed := by
  unfold subscribeToAssets
  dsimp only
  split
  · rfl
  · split <;> rfl

theorem subscribeToAssets_subscribed (st : ConnState) (ids : List String) (x : String) :
    x ∈ (subscribeToAssets st ids).1.subscribed ↔ x ∈ st.subscribed ∨ x ∈ ids := by
  rw [subscribeToAssets_fst_subscribed]
  split
  · next h =>
      have h₁ : ∀ i ∈ ids, i ∈ st.subscribed := by
        have hnil := List.filter_eq_nil_iff.mp (List.isEmpty_iff.mp h)
        intro i hi
        have hb := hnil i hi
        cases hcb : st.subscribed.contains i with
        | true => exact List.mem_of_elem_eq_true hcb
        | false => exact absurd (by rw [hcb]; rfl) hb
      constructor
      · exact Or.inl
      · rintro (hx | hx)
        · exact hx
        · exact h₁ x hx
  · rw [mem_foldl_addAsset]
    simp only [List.mem_filter]
    constructor
    · rintro (hx | ⟨hx, _⟩)
      · exact Or.inl hx
      · exact Or.inr hx
    · rintro (hx | hx)
      · exact Or.inl hx
      · by_cases hm : x ∈ st.subscribed
        · exact Or.inl hm
        · refine Or.inr ⟨hx, ?_⟩
          cases hcb : st.subscribed.contains x with
          | true => exact absurd (List.mem_of_elem_eq_true hcb) hm
          | false => rfl

/-- C1: the spec says the affected side is re-sorted with bids descending by
numeric price.  The code comment of updateOrderBookSide states the same
intent (sort: asks ascending, bids descending), but the single comparator
sorts every side ascending: applying a BUY change at price 0.3 to the bid
ladder holding price 0.5 yields the ladder ascending, not descending, in
numeric price.  This evaluates the code at that failing input. -/
theorem C1_bids_sorted_ascending_not_descending :
    updateOrderBookSide [{ price := "0.5", size := "10" }]
        { side := "BUY", price := "0.3", size := "2" }
      = [{ price := "0.3", size := "2" }, { price := "0.5", size := "10" }]
    ∧ decide (List.Sorted priceGe
        (updateOrderBookSide [{ price := "0.5", size := "10" }]
          { side := "BUY", price := "0.3", size := "2" })) = false
    ∧ List.Sorted priceLe
        (updateOrderBookSide [{ price := "0.5", size := "10" }]
          { side := "BUY", price := "0.3", size := "2" }) := by
  refine ⟨by decide, by decide, by decide⟩

/-- C2 counterexample: at a state that knows no asset and an input of one
fresh id, one id is newly added, but the call to subscribeToAssets
evaluates to undefined (none), not to the count 1 claimed by the spec
sentence saying track returns how many ids were newly added. -/
theorem C2_counterexample_no_return_count :
    subscribeToAssetsReturn { subscribed := [], wsOpen := true } ["a"]
      ≠ track_spec_return { subscribed := [], wsOpen := true } ["a"] := by
  decide

/-- C2 (amended): subscribeToAssets adds to the subscription set exactly
the ids not already known; it sends exactly the newly added ids (and no
others), in one message, when the connection is open and at least one id
is new, and sends nothing otherwise; it returns no count (the TS function
returns undefined), and an input of only known ids is a valid non-error
no-op. -/
theorem C2_track_adds_and_forwards_delta (st : ConnState) (ids : List String) (x : String) :
    ((subscribeToAssets st ids).2
      = if (ids.filter (fun i => !(st.subscribed.contains i))).isEmpty then []
        else if st.wsOpen then
          [{ assets_ids := ids.filter (fun i => !(st.subscribed.contains i)), type := "market" }]
        else [])
    ∧ (x ∈ (subscribeToAssets st ids).1.subscribed ↔ x ∈ st.subscribed ∨ x ∈ ids)
    ∧ subscribeToAssetsReturn st ids = none :=
  ⟨subscribeToAssets_msgs st ids, subscribeToAssets_subscribed st ids x, rfl⟩

/-- C4 counterexample: when the connection opens while no asset is known,
the open handler sends no subscription message at all (the send is guarded
by subscribedAssets.size > 0), not the one message the claim asserts. -/
theorem C4_counterexample_open_empty_set :
    ¬ ((wsOnOpen { subscribed := [], wsOpen := false }).2.length = 1) := by
  decide

/-- C4 (amended): on connection open, if the known asset-id set is
non-empty, exactly one subscription message carrying the entire set is
sent, and nothing is sent when the set is empty; a track call with
not-yet-subscribed ids while open sends exactly one message carrying only
the delta; ids registered while the connection is closed are sent in no
message at registration time but are contained in the full-set message of
the next open; the subscription set never loses an id. -/
theorem C4_subscription_protocol (st : ConnState) (ids subs : List String) (x id : String)
    (hx : x ∈ st.subscribed) (hid : id ∈ ids) :
    ((wsOnOpen st).2
        = if st.subscribed.isEmpty then []
          else [{ assets_ids := st.subscribed, type := "market" }])
    ∧ (wsOnOpen st).1.subscribed = st.subscribed
    ∧ ((subscribeToAssets st ids).2
        = if (ids.filter (fun i => !(st.subscribed.contains i))).isEmpty then []
          else if st.wsOpen then
            [{ assets_ids := ids.filter (fun i => !(st.subscribed.contains i)), type := "market" }]
          else [])
    ∧ x ∈ (subscribeToAssets st ids).1.subscribed
    ∧ (subscribeToAssets { subscribed := subs, wsOpen := false } ids).2 = []
    ∧ id ∈ (subscribeToAssets { subscribed := subs, wsOpen := false } ids).1.subscribed
    ∧ (wsOnOpen (subscribeToAssets { subscribed := subs, wsOpen := false } ids).1).2
        = [{ assets_ids :=
               (subscribeToAssets { subscribed := subs, wsOpen := false } ids).1.subscribed,
             type := "market" }] := by
  have habs : id ∈ (subscribeToAssets { subscribed := subs, wsOpen := false } ids).1.subscribed :=
    (subscribeToAssets_subscribed _ ids id).mpr (Or.inr hid)
  have hOpenSub : (wsOnOpen st).1.subscribed = st.subscribed := by
    unfold wsOnOpen
    dsimp only
    split <;> rfl
  refine ⟨?_, hOpenSub, subscribeToAssets_msgs st ids,
    (subscribeToAssets_subscribed st ids x).mpr (Or.inl hx), ?_, habs, ?_⟩
  · unfold wsOnOpen
    dsimp only
    split
    · rfl
    · rfl
  · rw [subscribeToAssets_msgs]
    split
    · rfl
    · rfl
  · unfold wsOnOpen
    dsimp only
    split
    · next hE =>
        rw [List.isEmpty_iff.mp hE] at habs
        exact absurd habs (List.not_mem_nil id)
    · rfl

/-- C4 witness: the protocol theorem applied at a state knowing asset a
with the socket open, tracking the fresh id b, and id b registered while
a connection with known set c is closed. -/
theorem C4_subscription_protocol_witness :
    ((wsOnOpen { subscribed := ["a"], wsOpen := true }).2
        = if (["a"] : List String).isEmpty then []
          else [{ assets_ids := ["a"], type := "market" }])
    ∧ (wsOnOpen { subscribed := ["a"], wsOpen := true }).1.subscribed = ["a"]
    ∧ ((subscribeToAssets { subscribed := ["a"], wsOpen := true } ["b"]).2
        = if ((["b"] : List String).filter
              (fun i => !((["a"] : List String).contains i))).isEmpty then []
          else if true then
            [{ assets_ids := (["b"] : List String).filter
                 (fun i => !((["a"] : List String).contains i)), type := "market" }]
          else [])
    ∧ "a" ∈ (subscribeToAssets { subscribed := ["a"], wsOpen := true } ["b"]).1.subscribed
    ∧ (subscribeToAssets { subscribed := ["c"], wsOpen := false } ["b"]).2 = []
    ∧ "b" ∈ (subscribeToAssets { subscribed := ["c"], wsOpen := false } ["b"]).1.subscribed
    ∧ (wsOnOpen (subscribeToAssets { subscribed := ["c"], wsOpen := false } ["b"]).1).2
        = [{ assets_ids :=
               (subscribeToAssets { subscribed := ["c"], wsOpen := false } ["b"]).1.subscribed,
             type := "market" }] :=
  C4_subscription_protocol { subscribed := ["a"], wsOpen := true } ["b"] ["c"] "a" "b"
    (by decide) (by decide)

/-- C6: the order-book read returns the last written book exactly when now
minus its timestamp is strictly below maxAgeMs, and the stale answer is
null (none), not an error. -/
theorem C6_freshness_bounded_read (cache : OrderBookCache) (now : Int) (assetId : String)
    (maxAgeMs : Int) (cached : OrderBook) (h : cache.lookup assetId = some cached) :
    getCachedOrderBook cache now assetId maxAgeMs
        = (if now - cached.timestamp < maxAgeMs then some cached else none)
    ∧ (getCachedOrderBook cache now assetId maxAgeMs = some cached
        ↔ now - cached.timestamp < maxAgeMs) := by
  have hg : getCachedOrderBook cache now assetId maxAgeMs
      = if now - cached.timestamp < maxAgeMs then some cached else none := by
    unfold getCachedOrderBook
    rw [h]
  refine ⟨hg, ?_⟩
  rw [hg]
  split
  · next h₂ => simp [h₂]
  · next h₂ => simp [h₂]

/-- C6 witness: a book written at time 100 read at time 150 is returned at
bound 100 but the bound 30 is below the elapsed 50, so a separate
application at that bound gives the stale branch of the same equation. -/
theorem C6_freshness_bounded_read_witness :
    (getCachedOrderBook [("A", { asks := [], bids := [], timestamp := 100 })] 150 "A" 30
        = (if (150 : Int) - 100 < 30 then some { asks := [], bids := [], timestamp := 100 }
           else none))
    ∧ (getCachedOrderBook [("A", { asks := [], bids := [], timestamp := 100 })] 150 "A" 30
        = some { asks := [], bids := [], timestamp := 100 }
        ↔ (150 : Int) - 100 < 30) :=
  C6_freshness_bounded_read [("A", { asks := [], bids := [], timestamp := 100 })] 150 "A" 30
    { asks := [], bids := [], timestamp := 100 } (by decide)

/-- C7: an incremental change removes any existing ladder entry at its
price and re-inserts the pair only when the parsed size is positive: the
resulting side is, up to the re-sort, the removal-filtered old side plus
at most the one new entry, and the entries at the changed price in the
result are exactly the new entry or nothing; in the spec scenario, a book
snapshot with one bid at 0.5 followed by a BUY change at 0.5 of size 0
leaves the bid ladder of the cached book empty. -/
theorem C7_size_zero_removes_size_pos_inserts (side : List BookEntry) (ch : PriceChange) :
    (updateOrderBookSide side ch).Perm
        ((if parseFloat ch.size > 0 then [{ price := ch.price, size := ch.size }] else [])
          ++ side.filter (fun e => e.price != ch.price))
    ∧ (updateOrderBookSide side ch).filter (fun e => e.price == ch.price)
        = (if parseFloat ch.size > 0 then [{ price := ch.price, size := ch.size }] else [])
    ∧ (List.lookup "A"
          (handleMessage
            (handleMessage [] 1000 "A" (.book [] [{ price := "0.5", size := "10" }]))
            2000 "A" (.priceChange (some [{ side := "BUY", price := "0.5", size := "0" }])))).map
        OrderBook.bids = some [] := by
  have hfiltered : List.filter (fun e => e.price == ch.price)
      (side.filter (fun e => e.price != ch.price)) = [] := by
    refine List.filter_eq_nil_iff.mpr ?_
    intro r hr
    have hne := (List.mem_filter.mp hr).2
    simp only [bne_iff_ne, ne_eq] at hne
    simp only [beq_iff_eq]
    exact hne
  have hperm : (updateOrderBookSide side ch).Perm
      ((if parseFloat ch.size > 0 then [{ price := ch.price, size := ch.size }] else [])
        ++ side.filter (fun e => e.price != ch.price)) := by
    unfold updateOrderBookSide
    dsimp only
    split
    · exact (List.perm_insertionSort _ _).trans List.perm_append_comm
    · exact List.perm_insertionSort _ _
  refine ⟨hperm, ?_, by decide⟩
  have h₂ := hperm.filter (fun e => e.price == ch.price)
  by_cases hs : parseFloat ch.size > 0
  · rw [if_pos hs] at h₂ ⊢
    have hr : List.filter (fun e => e.price == ch.price)
        ([{ price := ch.price, size := ch.size }] ++ side.filter (fun e => e.price != ch.price))
        = [{ price := ch.price, size := ch.size }] := by
      rw [List.filter_append, hfiltered]
      simp
    rw [hr] at h₂
    exact List.perm_singleton.mp h₂
  · rw [if_neg hs] at h₂ ⊢
    have hr : List.filter (fun e => e.price == ch.price)
        ([] ++ side.filter (fun e => e.price != ch.price)) = [] := by
      rw [List.nil_append, hfiltered]
    rw [hr] at h₂
    exact h₂.eq_nil

theorem pollActivityStep_stale (cutoff : Int) (s : List UserActivityRecord × ConnState)
    (a : ActivityEvent) (h : a.timestamp < cutoff) : pollActivityStep cutoff s a = s := by
  unfold pollActivityStep
  rw [if_pos h]

theorem processActivities_all_stale (cutoff : Int) :
    ∀ (l : List ActivityEvent) (s : List UserActivityRecord × ConnState),
      (∀ a ∈ l, a.timestamp < cutoff) → processActivities cutoff s l = s := by
  intro l
  induction l with
  | nil => intro s _; rfl
  | cons a l ih =>
      intro s hall
      have h₁ : processActivities cutoff s (a :: l)
          = processActivities cutoff (pollActivityStep cutoff s a) l := rfl
      rw [h₁, pollActivityStep_stale cutoff s a (hall a (List.mem_cons_self a l))]
      exact ih s (fun b hb => hall b (List.mem_cons_of_mem a hb))

/-- C8: a poll cycle persists nothing for entries with timestamp below the
cutoff, regardless of the dedup state: processing any fetched array is the
same as processing only its fresh entries, and processing only stale
entries leaves the state untouched. -/
theorem C8_stale_entries_never_persisted (cutoff : Int)
    (s : List UserActivityRecord × ConnState) (activities : List ActivityEvent) :
    processActivities cutoff s activities
        = processActivities cutoff s
            (activities.filter (fun a => !decide (a.timestamp < cutoff)))
    ∧ processActivities cutoff s
        (activities.filter (fun a => decide (a.timestamp < cutoff))) = s := by
  constructor
  · induction activities generalizing s with
    | nil => rfl
    | cons a l ih =>
        by_cases h : a.timestamp < cutoff
        · rw [List.filter_cons, if_neg (by simp [h])]
          have h₁ : processActivities cutoff s (a :: l)
              = processActivities cutoff (pollActivityStep cutoff s a) l := rfl
          rw [h₁, pollActivityStep_stale cutoff s a h]
          exact ih s
        · rw [List.filter_cons, if_pos (by simp [h])]
          have h₁ : processActivities cutoff s (a :: l)
              = processActivities cutoff (pollActivityStep cutoff s a) l := rfl
          have h₂ : processActivities cutoff s
              (a :: l.filter (fun a => !decide (a.timestamp < cutoff)))
              = processActivities cutoff (pollActivityStep cutoff s a)
                  (l.filter (fun a => !decide (a.timestamp < cutoff))) := rfl
          rw [h₁, h₂]
          exact ih (pollActivityStep cutoff s a)
  · refine processActivities_all_stale cutoff _ s ?_
    intro a ha
    have := (List.mem_filter.mp ha).2
    simpa using this

/-- C3: for a wallet whose log holds no record with the transaction
identifier of a fresh fetched entry, the first cycle persists exactly one
record for it, created with the processed flag bot false, and a second
cycle fetching an entry with the same transaction identifier leaves the
log unchanged, so exactly one record with that identifier exists after
both cycles. -/
theorem C3_idempotent_ingestion (cutoff : Int) (db : List UserActivityRecord)
    (conn conn₂ : ConnState) (a a₂ : ActivityEvent)
    (h1 : ∀ r ∈ db, r.transactionHash ≠ a.transactionHash)
    (h2 : ¬ a.timestamp < cutoff)
    (h3 : a₂.transactionHash = a.transactionHash) :
    (processActivities cutoff (db, conn) [a]).1 = db ++ [mkUserActivity a]
    ∧ ((db ++ [mkUserActivity a]).filter
        (fun r => r.transactionHash == a.transactionHash)).length = 1
    ∧ (mkUserActivity a).bot = false
    ∧ (processActivities cutoff (db ++ [mkUserActivity a], conn₂) [a₂]).1
        = db ++ [mkUserActivity a] := by
  have hfind : db.find? (fun r => r.transactionHash == a.transactionHash) = none := by
    refine List.find?_eq_none.mpr ?_
    intro r hr
    simp only [beq_iff_eq]
    exact h1 r hr
  have hc1 : (processActivities cutoff (db, conn) [a]).1 = db ++ [mkUserActivity a] := by
    show (pollActivityStep cutoff (db, conn) a).1 = _
    unfold pollActivityStep
    rw [if_neg h2]
    dsimp only
    rw [hfind]
  have hdbnil : db.filter (fun r => r.transactionHash == a.transactionHash) = [] := by
    refine List.filter_eq_nil_iff.mpr ?_
    intro r hr
    simp only [beq_iff_eq]
    exact h1 r hr
  have hcount : ((db ++ [mkUserActivity a]).filter
      (fun r => r.transactionHash == a.transactionHash)).length = 1 := by
    rw [List.filter_append, hdbnil]
    simp [mkUserActivity]
  have hc2 : (processActivities cutoff (db ++ [mkUserActivity a], conn₂) [a₂]).1
      = db ++ [mkUserActivity a] := by
    show (pollActivityStep cutoff (db ++ [mkUserActivity a], conn₂) a₂).1 = _
    unfold pollActivityStep
    by_cases hstale : a₂.timestamp < cutoff
    · rw [if_pos hstale]
    · rw [if_neg hstale]
      have hfind₂ : (db ++ [mkUserActivity a]).find?
          (fun r => r.transactionHash == a₂.transactionHash) = some (mkUserActivity a) := by
        rw [List.find?_append]
        have hdb₂ : db.find? (fun r => r.transactionHash == a₂.transactionHash) = none := by
          refine List.find?_eq_none.mpr ?_
          intro r hr
          simp only [beq_iff_eq, h3]
          exact h1 r hr
        rw [hdb₂]
        simp [List.find?, mkUserActivity, h3]
      dsimp only
      rw [hfind₂]
  exact ⟨hc1, hcount, rfl, hc2⟩

/-- C3 witness: the idempotence theorem applied to an empty log and the
sample activity, fetched identically in both cycles. -/
theorem C3_idempotent_ingestion_witness :
    (processActivities 0 ([], { subscribed := [], wsOpen := false }) [sampleActivity]).1
        = [] ++ [mkUserActivity sampleActivity]
    ∧ ((([] : List UserActivityRecord) ++ [mkUserActivity sampleActivity]).filter
        (fun r => r.transactionHash == sampleActivity.transactionHash)).length = 1
    ∧ (mkUserActivity sampleActivity).bot = false
    ∧ (processActivities 0 ([] ++ [mkUserActivity sampleActivity],
          { subscribed := [], wsOpen := false }) [sampleActivity]).1
        = [] ++ [mkUserActivity sampleActivity] :=
  C3_idempotent_ingestion 0 [] { subscribed := [], wsOpen := false }
    { subscribed := [], wsOpen := false } sampleActivity sampleActivity
    (by intro r hr; exact absurd hr (List.not_mem_nil r)) (by decide) rfl

theorem lookup_cacheSet (c : OrderBookCache) (assetId : String) (ob : OrderBook) :
    (cacheSet c assetId ob).lookup assetId = some ob := by
  induction c with
  | nil => simp [cacheSet, List.lookup]
  | cons kv rest ih =>
      obtain ⟨k, v⟩ := kv
      by_cases h : (k == assetId) = true
      · simp [cacheSet, h, List.lookup]
      · have h₂ : (assetId == k) = false := by
          have hne : ¬ k = assetId := by
            intro hk
            exact h (by rw [hk, beq_self_eq_true])
          rw [beq_eq_false_iff_ne]
          intro hek
          exact hne hek.symm
        simp [cacheSet, h, List.lookup, h₂, ih]

theorem getCachedOrderBook_cacheSet (c : OrderBookCache) (now : Int) (assetId : String)
    (maxAgeMs : Int) (ob : OrderBook) :
    getCachedOrderBook (cacheSet c assetId ob) now assetId maxAgeMs
      = if now - ob.timestamp < maxAgeMs then some ob else none := by
  unfold getCachedOrderBook
  rw [lookup_cacheSet]

theorem applyPriceChanges_timestamp (changes : List PriceChange) :
    ∀ ob : OrderBook, (applyPriceChanges ob changes).timestamp = ob.timestamp := by
  induction changes with
  | nil => intro ob; rfl
  | cons c cs ih =>
      intro ob
      rw [show applyPriceChanges ob (c :: cs)
          = applyPriceChanges
              (if (c.side == "BUY") = true then { ob with bids := updateOrderBookSide ob.bids c }
               else { ob with asks := updateOrderBookSide ob.asks c }) cs from rfl, ih]
      split <;> rfl

/-- C10 counterexample: a price_change for an asset that never received a
book snapshot does not leave the new cache entry with empty ladders: a BUY
change of positive size is applied, so the created bid ladder is
non-empty, against the claim that the entry is created with empty bid and
ask ladders. -/
theorem C10_counterexample_changes_applied :
    ¬ ((List.lookup "A"
          (handleMessage [] 100 "A"
            (.priceChange (some [{ side := "BUY", price := "0.5", size := "2" }])))).map
        OrderBook.bids = some []) := by
  decide

/-- C10 (amended): a price_change, tick_size_change or last_trade_price
message for an asset id with no cache entry creates one with timestamp now
whose ladders are the changes of the message (if any) applied to empty
ladders, hence empty for last_trade_price and for messages carrying no
changes array; an immediately following read with any positive maxAgeMs
returns that fresh entry rather than null. -/
theorem C10_unknown_asset_creates_fresh_entry (cache : OrderBookCache) (now : Int)
    (assetId : String) (changes : Option (List PriceChange)) (maxAgeMs : Int)
    (h : cache.lookup assetId = none) (hpos : 0 < maxAgeMs) :
    handleMessage cache now assetId (.priceChange changes)
        = cacheSet cache assetId
            (applyPriceChanges { asks := [], bids := [], timestamp := now } (changes.getD []))
    ∧ handleMessage cache now assetId (.tickSizeChange changes)
        = cacheSet cache assetId
            (applyPriceChanges { asks := [], bids := [], timestamp := now } (changes.getD []))
    ∧ handleMessage cache now assetId .lastTradePrice
        = cacheSet cache assetId { asks := [], bids := [], timestamp := now }
    ∧ getCachedOrderBook (handleMessage cache now assetId .lastTradePrice) now assetId maxAgeMs
        = some { asks := [], bids := [], timestamp := now }
    ∧ getCachedOrderBook (handleMessage cache now assetId (.priceChange changes))
          now assetId maxAgeMs
        = some (applyPriceChanges { asks := [], bids := [], timestamp := now } (changes.getD [])) := by
  have h₁ : handleMessage cache now assetId (.priceChange changes)
      = cacheSet cache assetId
          (applyPriceChanges { asks := [], bids := [], timestamp := now } (changes.getD [])) := by
    simp only [handleMessage, h, Option.getD_none]
  have h₂ : handleMessage cache now assetId (.tickSizeChange changes)
      = cacheSet cache assetId
          (applyPriceChanges { asks := [], bids := [], timestamp := now } (changes.getD [])) := by
    simp only [handleMessage, h, Option.getD_none]
  have h₃ : handleMessage cache now assetId .lastTradePrice
      = cacheSet cache assetId { asks := [], bids := [], timestamp := now } := by
    simp only [handleMessage, h, Option.getD_none]
  refine ⟨h₁, h₂, h₃, ?_, ?_⟩
  · rw [h₃, getCachedOrderBook_cacheSet]
    rw [if_pos]
    show now - now < maxAgeMs
    rw [sub_self]
    exact hpos
  · rw [h₁, getCachedOrderBook_cacheSet]
    rw [if_pos]
    rw [applyPriceChanges_timestamp]
    show now - now < maxAgeMs
    rw [sub_self]
    exact hpos

/-- C10 witness: the amended theorem applied to the empty cache, asset A,
a changes-free price_change at time 100, read back with bound 5000. -/
theorem C10_unknown_asset_creates_fresh_entry_witness :
    handleMessage [] 100 "A" (.priceChange none)
        = cacheSet [] "A"
            (applyPriceChanges { asks := [], bids := [], timestamp := 100 }
              ((none : Option (List PriceChange)).getD []))
    ∧ handleMessage [] 100 "A" (.tickSizeChange none)
        = cacheSet [] "A"
            (applyPriceChanges { asks := [], bids := [], timestamp := 100 }
              ((none : Option (List PriceChange)).getD []))
    ∧ handleMessage [] 100 "A" .lastTradePrice
        = cacheSet [] "A" { asks := [], bids := [], timestamp := 100 }
    ∧ getCachedOrderBook (handleMessage [] 100 "A" .lastTradePrice) 100 "A" 5000
        = some { asks := [], bids := [], timestamp := 100 }
    ∧ getCachedOrderBook (handleMessage [] 100 "A" (.priceChange none)) 100 "A" 5000
        = some (applyPriceChanges { asks := [], bids := [], timestamp := 100 }
            ((none : Option (List PriceChange)).getD [])) :=
  C10_unknown_asset_creates_fresh_entry [] 100 "A" none 5000 rfl (by decide)

theorem pollActivityStep_fst (cutoff : Int) (a : ActivityEvent)
    (s s₂ : List UserActivityRecord × ConnState) (h : s.1 = s₂.1) :
    (pollActivityStep cutoff s a).1 = (pollActivityStep cutoff s₂ a).1 := by
  unfold pollActivityStep
  by_cases hst : a.timestamp < cutoff
  · rw [if_pos hst, if_pos hst]
    exact h
  · rw [if_neg hst, if_neg hst, h]
    split
    · exact h
    · rfl

theorem processActivities_fst (cutoff : Int) (acts : List ActivityEvent) :
    ∀ (s s₂ : List UserActivityRecord × ConnState), s.1 = s₂.1 →
      (processActivities cutoff s acts).1 = (processActivities cutoff s₂ acts).1 := by
  induction acts with
  | nil => intro s s₂ h; exact h
  | cons a l ih =>
      intro s s₂ h
      exact ih (pollActivityStep cutoff s a) (pollActivityStep cutoff s₂ a)
        (pollActivityStep_fst cutoff a s s₂ h)

theorem pollWalletBody_fst (cutoff : Int) (w : WalletInput) (conn conn₂ : ConnState) :
    (pollWalletBody cutoff conn w).1.1 = (pollWalletBody cutoff conn₂ w).1.1 := by
  unfold pollWalletBody
  split
  · rfl
  · next acts heq =>
      split
      · rfl
      · have hp : (processActivities cutoff (w.db, conn) acts).1
            = (processActivities cutoff (w.db, conn₂) acts).1 :=
          processActivities_fst cutoff acts (w.db, conn) (w.db, conn₂) rfl
        split
        · split
          · dsimp only
            rw [hp]
          · split
            · dsimp only
              rw [hp]
            · dsimp only
              rw [hp]
        · dsimp only
          rw [hp]

theorem pollWallet_fst (cutoff : Int) (conn : ConnState) (w : WalletInput) :
    (pollWallet cutoff conn w).1 = pollWalletOut cutoff w :=
  pollWalletBody_fst cutoff w conn { subscribed := [], wsOpen := false }

theorem fastPoll_fold_ok (cutoff : Int) (ws : List WalletInput) :
    ∀ (conn : ConnState) (acc : List (List UserActivityRecord × List UserPositionRecord)),
      ∃ connF, List.foldlM (pollWalletFold cutoff) (acc, conn) ws
          = Except.ok (acc ++ ws.map (pollWalletOut cutoff), connF) := by
  induction ws with
  | nil =>
      intro conn acc
      refine ⟨conn, ?_⟩
      rw [List.foldlM_nil]
      rw [List.map_nil, List.append_nil]
      rfl
  | cons w ws ih =>
      intro conn acc
      obtain ⟨connF, hF⟩ := ih (pollWallet cutoff conn w).2 (acc ++ [(pollWallet cutoff conn w).1])
      refine ⟨connF, ?_⟩
      rw [List.foldlM_cons]
      have hstep : pollWalletFold cutoff (acc, conn) w
          = Except.ok (acc ++ [(pollWallet cutoff conn w).1], (pollWallet cutoff conn w).2) := rfl
      rw [hstep]
      have hbind :
          ((Except.ok (acc ++ [(pollWallet cutoff conn w).1], (pollWallet cutoff conn w).2) :
              Except String (List (List UserActivityRecord × List UserPositionRecord) × ConnState))
            >>= fun init => List.foldlM (pollWalletFold cutoff) init ws)
          = List.foldlM (pollWalletFold cutoff)
              (acc ++ [(pollWallet cutoff conn w).1], (pollWallet cutoff conn w).2) ws := rfl
      rw [hbind, hF, pollWallet_fst cutoff conn w]
      rw [List.append_assoc]
      rfl

/-- C9: the poll cycle never rejects and failures are isolated per wallet:
fastPollTradeData always resolves, its list of per-wallet persisted
outcomes is the pointwise image of the wallet inputs (each wallet's
outcome is a function of that wallet's input alone, whatever the other
wallets did), and a wallet whose activity fetch threw contributes its
collections unchanged (the error is only caught and logged). -/
theorem C9_per_wallet_isolation_no_rejection (cutoff : Int) (conn : ConnState)
    (wallets : List WalletInput) (e : String) (dp : Bool)
    (pf : Except String (List PositionEvent)) (db : List UserActivityRecord)
    (posDb : List UserPositionRecord) :
    (∃ connF, fastPollTradeData cutoff conn wallets
        = Except.ok (wallets.map (pollWalletOut cutoff), connF))
    ∧ pollWalletOut cutoff
        { actFetch := Except.error e, doPositions := dp, posFetch := pf,
          db := db, posDb := posDb }
        = (db, posDb) := by
  constructor
  · obtain ⟨connF, h⟩ := fastPoll_fold_ok cutoff wallets conn []
    exact ⟨connF, h⟩
  · rfl

theorem count_bulkMark_replicate_pollCycle (k : Nat) :
    List.count MonitorPhase.bulkMark (List.replicate k MonitorPhase.pollCycle) = 0 := by
  rw [List.count_replicate, if_neg]
  decide

/-- C5: the first-run bulk operation leaves every record of every wallet
with the processed flag bot true; in the trace of an invocation entered
with the isFirstRun flag true, the bulk mark sits after the stored-count
snapshot display and before every poll cycle; and across an invocation
with the flag true followed by one entered with the flag it left behind,
the bulk mark occurs exactly once. -/
theorem C5_first_run_bulk_mark (dbs : List (List UserActivityRecord)) (n m : Nat)
    (db : List UserActivityRecord) (r : UserActivityRecord)
    (hdb : db ∈ bulkMarkProcessed dbs) (hr : r ∈ db) :
    r.bot = true
    ∧ wsTradeMonitorTrace true n
        = ([MonitorPhase.dbSnapshot, MonitorPhase.myPositions, MonitorPhase.traderPositions,
            MonitorPhase.wsConnect, MonitorPhase.initSubscriptions]
            ++ [MonitorPhase.bulkMark] ++ List.replicate n MonitorPhase.pollCycle, false)
    ∧ MonitorPhase.dbSnapshot
        ∈ [MonitorPhase.dbSnapshot, MonitorPhase.myPositions, MonitorPhase.traderPositions,
           MonitorPhase.wsConnect, MonitorPhase.initSubscriptions]
    ∧ MonitorPhase.bulkMark
        ∉ [MonitorPhase.dbSnapshot, MonitorPhase.myPositions, MonitorPhase.traderPositions,
           MonitorPhase.wsConnect, MonitorPhase.initSubscriptions]
    ∧ MonitorPhase.pollCycle
        ∉ [MonitorPhase.dbSnapshot, MonitorPhase.myPositions, MonitorPhase.traderPositions,
           MonitorPhase.wsConnect, MonitorPhase.initSubscriptions]
    ∧ List.count MonitorPhase.bulkMark
        ((wsTradeMonitorTrace true n).1
          ++ (wsTradeMonitorTrace (wsTradeMonitorTrace true n).2 m).1) = 1 := by
  refine ⟨?_, rfl, by decide, by decide, by decide, ?_⟩
  · obtain ⟨db₀, hdb₀, rfl⟩ := List.mem_map.mp hdb
    obtain ⟨r₀, hr₀, rfl⟩ := List.mem_map.mp hr
    cases hbot : r₀.bot with
    | false => simp [hbot]
    | true => simp [hbot]
  · show List.count MonitorPhase.bulkMark
        (([MonitorPhase.dbSnapshot, MonitorPhase.myPositions, MonitorPhase.traderPositions,
            MonitorPhase.wsConnect, MonitorPhase.initSubscriptions]
           ++ ([MonitorPhase.bulkMark] ++ List.replicate n MonitorPhase.pollCycle))
          ++ ([MonitorPhase.dbSnapshot, MonitorPhase.myPositions, MonitorPhase.traderPositions,
               MonitorPhase.wsConnect, MonitorPhase.initSubscriptions]
              ++ List.replicate m MonitorPhase.pollCycle)) = 1
    simp only [List.count_append, count_bulkMark_replicate_pollCycle]
    decide

/-- C5 witness: the bulk-mark theorem applied to one wallet holding one
unprocessed sample record, with one poll cycle in each of two successive
invocations. -/
theorem C5_first_run_bulk_mark_witness :
    processedSampleRecord.bot = true
    ∧ wsTradeMonitorTrace true 1
        = ([MonitorPhase.dbSnapshot, MonitorPhase.myPositions, MonitorPhase.traderPositions,
            MonitorPhase.wsConnect, MonitorPhase.initSubscriptions]
            ++ [MonitorPhase.bulkMark] ++ List.replicate 1 MonitorPhase.pollCycle, false)
    ∧ MonitorPhase.dbSnapshot
        ∈ [MonitorPhase.dbSnapshot, MonitorPhase.myPositions, MonitorPhase.traderPositions,
           MonitorPhase.wsConnect, MonitorPhase.initSubscriptions]
    ∧ MonitorPhase.bulkMark
        ∉ [MonitorPhase.dbSnapshot, MonitorPhase.myPositions, MonitorPhase.traderPositions,
           MonitorPhase.wsConnect, MonitorPhase.initSubscriptions]
    ∧ MonitorPhase.pollCycle
        ∉ [MonitorPhase.dbSnapshot, MonitorPhase.myPositions, MonitorPhase.traderPositions,
           MonitorPhase.wsConnect, MonitorPhase.initSubscriptions]
    ∧ List.count MonitorPhase.bulkMark
        ((wsTradeMonitorTrace true 1).1
          ++ (wsTradeMonitorTrace (wsTradeMonitorTrace true 1).2 1).1) = 1 :=
  C5_first_run_bulk_mark [[sampleRecord]] 1 1 [processedSampleRecord] processedSampleRecord
    (by decide) (by decide)
